import Mathlib

/-!
Verification of the attribute-resolution and construction pipeline of
`frappe_factory_bot` (file `frappe_factory_bot/frappe_factory_bot/base_factory.py`).

Python dicts are modelled as insertion-ordered association lists
(`List (String × Value)`).  The dict-literal spread `{**a, **b}` updates the
value of an existing key in place and appends fresh keys at the end, which is
exactly what `dictInsert` / `dictMerge` below implement.  Lookup (`d[k]` /
`d.get(k)`) returns the value at the first (unique, for genuine Python dicts)
occurrence of the key.
-/

namespace FrappeFactoryBot

/-- Attribute values appearing in factory mappings: strings, integers, and
nested mappings (the `flags` override carries a nested dict). -/
inductive Value where
  | str (s : String)
  | int (z : Int)
  | map (m : List (String × Value))

/-- A Python dict of attribute values, as an insertion-ordered association list. -/
abbrev VDict := List (String × Value)

/-- Lookup of the first entry with the given key (Python `d.get(k)`). -/
def assocFind {α : Type} : List (String × α) → String → Option α
  | [], _ => none
  | p :: tl, k => if p.1 = k then some p.2 else assocFind tl k

/-- Key membership test (Python `k in d`). -/
def hasKey {α : Type} : List (String × α) → String → Bool
  | [], _ => false
  | p :: tl, k => if p.1 = k then true else hasKey tl k

/-- Replace the value at every occurrence of the key, keeping positions. -/
def replaceKey {α : Type} : List (String × α) → String → α → List (String × α)
  | [], _, _ => []
  | p :: tl, k, v => (if p.1 = k then (k, v) else p) :: replaceKey tl k v

/-- Python dict update for one key: update in place when present, append when
absent. -/
def dictInsert {α : Type} (m : List (String × α)) (k : String) (v : α) :
    List (String × α) :=
  if hasKey m k then replaceKey m k v else m ++ [(k, v)]

/-- Python dict-literal spread `{**a, **b}` (also `a.update(b)`): fold the
entries of `b` into `a`, later entries winning. -/
def dictMerge {α : Type} (a b : List (String × α)) : List (String × α) :=
  b.foldl (fun acc p => dictInsert acc p.1 p.2) a

/-- Lookup of the last entry with the given key.  For genuine Python dicts
(unique keys) this coincides with `assocFind`. -/
def lastFind {α : Type} (m : List (String × α)) (k : String) : Option α :=
  assocFind m.reverse k

/-- First-alternative choice on options (used to phrase precedence chains). -/
def oalt {α : Type} : Option α → Option α → Option α
  | some v, _ => some v
  | none, b => b

/-- Keys of an association list, in order. -/
def keysOf {α : Type} (m : List (String × α)) : List String :=
  m.map Prod.fst

/-- A genuine Python dict never holds the same key twice. -/
def DictWF {α : Type} (m : List (String × α)) : Prop :=
  (keysOf m).Nodup

instance {α : Type} (m : List (String × α)) : Decidable (DictWF m) := by
  unfold DictWF; infer_instance

@[simp] theorem oalt_none_left {α : Type} (b : Option α) : oalt none b = b := rfl

@[simp] theorem oalt_some_left {α : Type} (v : α) (b : Option α) :
    oalt (some v) b = some v := rfl

@[simp] theorem oalt_none_right {α : Type} (a : Option α) : oalt a none = a := by
  cases a <;> rfl

theorem oalt_assoc {α : Type} (a b c : Option α) :
    oalt (oalt a b) c = oalt a (oalt b c) := by
  cases a <;> rfl

theorem oalt_self {α : Type} (a b : Option α) : oalt a (oalt a b) = oalt a b := by
  cases a <;> rfl

@[simp] theorem assocFind_nil {α : Type} (k : String) :
    assocFind ([] : List (String × α)) k = none := rfl

@[simp] theorem assocFind_cons {α : Type} (p : String × α) (tl : List (String × α))
    (k : String) :
    assocFind (p :: tl) k = if p.1 = k then some p.2 else assocFind tl k := rfl

theorem assocFind_append {α : Type} (a b : List (String × α)) (k : String) :
    assocFind (a ++ b) k = oalt (assocFind a k) (assocFind b k) := by
  induction a with
  | nil => simp
  | cons p tl ih =>
      by_cases h : p.1 = k <;> simp [h, ih]

theorem hasKey_false_iff {α : Type} (m : List (String × α)) (k : String) :
    hasKey m k = false ↔ ∀ p ∈ m, p.1 ≠ k := by
  induction m with
  | nil => simp [hasKey]
  | cons p tl ih =>
      by_cases h : p.1 = k <;> simp [hasKey, h, ih]

theorem assocFind_eq_none_of_hasKey_false {α : Type} {m : List (String × α)}
    {k : String} (h : hasKey m k = false) : assocFind m k = none := by
  induction m with
  | nil => rfl
  | cons p tl ih =>
      rw [hasKey_false_iff] at h
      have hp : p.1 ≠ k := h p (List.mem_cons_self p tl)
      have htl : hasKey tl k = false := by
        rw [hasKey_false_iff]
        exact fun q hq => h q (List.mem_cons_of_mem p hq)
      simp [hp, ih htl]

theorem assocFind_replaceKey_self {α : Type} (m : List (String × α)) (k : String)
    (v : α) :
    assocFind (replaceKey m k v) k =
      if hasKey m k then some v else none := by
  induction m with
  | nil => rfl
  | cons p tl ih =>
      by_cases h : p.1 = k <;> simp [replaceKey, hasKey, h, ih]

theorem assocFind_replaceKey_other {α : Type} (m : List (String × α))
    {k k' : String} (v : α) (hne : k' ≠ k) :
    assocFind (replaceKey m k v) k' = assocFind m k' := by
  induction m with
  | nil => rfl
  | cons p tl ih =>
      by_cases h : p.1 = k
      · have : ¬ (k = k') := fun hc => hne hc.symm
        simp [replaceKey, h, this, ih]
      · simp [replaceKey, h, ih]

theorem assocFind_dictInsert {α : Type} (m : List (String × α)) (k k' : String)
    (v : α) :
    assocFind (dictInsert m k v) k' =
      if k' = k then some v else assocFind m k' := by
  unfold dictInsert
  by_cases hk : hasKey m k
  · by_cases h : k' = k
    · subst h
      simp [hk, assocFind_replaceKey_self, hk]
    · simp [hk, h, assocFind_replaceKey_other m v h]
  · have hk' : hasKey m k = false := by simpa using hk
    by_cases h : k' = k
    · subst h
      simp [hk', assocFind_append, assocFind_eq_none_of_hasKey_false hk']
    · have hkk : ¬ (k = k') := fun hc => h hc.symm
      simp [hk', assocFind_append, h, hkk]

@[simp] theorem lastFind_nil {α : Type} (k : String) :
    lastFind ([] : List (String × α)) k = none := rfl

theorem lastFind_cons {α : Type} (p : String × α) (tl : List (String × α))
    (k : String) :
    lastFind (p :: tl) k =
      oalt (lastFind tl k) (if p.1 = k then some p.2 else none) := by
  unfold lastFind
  simp [List.reverse_cons, assocFind_append]

theorem assocFind_dictMerge {α : Type} (a b : List (String × α)) (k : String) :
    assocFind (dictMerge a b) k = oalt (lastFind b k) (assocFind a k) := by
  induction b generalizing a with
  | nil => simp [dictMerge]
  | cons p tl ih =>
      have step : dictMerge a (p :: tl) = dictMerge (dictInsert a p.1 p.2) tl := rfl
      rw [step, ih, lastFind_cons, oalt_assoc, assocFind_dictInsert]
      by_cases h : p.1 = k
      · subst h
        simp
      · have h' : ¬ (k = p.1) := fun hc => h hc.symm
        simp [h, h']

theorem lastFind_eq_assocFind_of_wf {α : Type} {m : List (String × α)}
    (hm : DictWF m) (k : String) : lastFind m k = assocFind m k := by
  induction m with
  | nil => rfl
  | cons p tl ih =>
      unfold DictWF keysOf at hm
      rw [List.map_cons, List.nodup_cons] at hm
      obtain ⟨hp, htl⟩ := hm
      rw [lastFind_cons, ih htl]
      by_cases h : p.1 = k
      · subst h
        have : hasKey tl p.1 = false := by
          rw [hasKey_false_iff]
          intro q hq hc
          exact hp (hc ▸ List.mem_map_of_mem Prod.fst hq)
        simp [assocFind_eq_none_of_hasKey_false this]
      · simp [h]

theorem assocFind_dictMerge_wf {α : Type} {a b : List (String × α)}
    (hb : DictWF b) (k : String) :
    assocFind (dictMerge a b) k = oalt (assocFind b k) (assocFind a k) := by
  rw [assocFind_dictMerge, lastFind_eq_assocFind_of_wf hb]

theorem assocFind_dictMerge_idem {α : Type} (a m : List (String × α)) (k : String) :
    assocFind (dictMerge (dictMerge a m) m) k = assocFind (dictMerge a m) k := by
  rw [assocFind_dictMerge, assocFind_dictMerge, oalt_self]

/-!
The factory data model, translated from `BaseFactory` in `base_factory.py`.

A concrete factory class is a subclass of `BaseFactory` supplying a `doctype`
string and a number of zero-argument properties, each returning a dict.  Since
the properties are pure zero-argument functions, a class is modelled by its
`doctype` together with its own `__dict__` restricted to those property
entries, in definition order: a list of `(name, returned mapping)` pairs.
-/

/-- A concrete `BaseFactory` subclass: the declared `doctype` and the
class-level property entries (name, returned dict), in definition order. -/
structure FactoryClass where
  doctype : String
  ownProps : List (String × VDict)

/-- Source `BaseFactory.__init__`:
`[name for name, value in self.__class__.__dict__.items()
  if isinstance(value, property) and name != "default_attributes"]`. -/
def validTraits (cls : FactoryClass) : List String :=
  (cls.ownProps.filter (fun p => p.1 ≠ "default_attributes")).map Prod.fst

/-- Source `BaseFactory.default_attributes` (`return {}`) as overridden by the
concrete class: the `default_attributes` property when the subclass declares
one, the empty dict inherited from `BaseFactory` otherwise. -/
def default_attributes (cls : FactoryClass) : VDict :=
  (assocFind cls.ownProps "default_attributes").getD []

/-- Python `getattr(self, name)` for a property name.  Callers only pass names
validated to be declared on the class (an absent name would raise
`AttributeError` in Python; no operation modelled here reaches that case). -/
def getProp (cls : FactoryClass) (name : String) : VDict :=
  (assocFind cls.ownProps name).getD []

/-- The `TypeError` raised by `BaseFactory.__init__`; its message interpolates
the full requested trait list and the full valid-trait list. -/
structure TraitError where
  requested : List String
  valid : List String

/-- An ephemeral factory instance: class, `factory_traits`, `overrides`. -/
structure FactoryInstance where
  cls : FactoryClass
  factory_traits : List String
  overrides : VDict

/-- Source `BaseFactory.__init__`: store the traits, then raise unless
`set(self.factory_traits).issubset(valid_traits)`.  `overrides` is assigned
only later (by `build`); it starts out empty here. -/
def init (cls : FactoryClass) (factory_traits : List String) :
    Except TraitError FactoryInstance :=
  let valid := validTraits cls
  if factory_traits.all (fun t => decide (t ∈ valid)) then
    Except.ok { cls := cls, factory_traits := factory_traits, overrides := [] }
  else
    Except.error { requested := factory_traits, valid := valid }

/-- Source `BaseFactory.attributes`:
`reduce(lambda acc, el: {**acc, **getattr(self, el)}, self.factory_traits,
self.default_attributes)`. -/
def attributes (inst : FactoryInstance) : VDict :=
  inst.factory_traits.foldl
    (fun acc el => dictMerge acc (getProp inst.cls el))
    (default_attributes inst.cls)

/-!
The external record system (frappe), modelled as an abstract stateful oracle:
`frappe.get_doc` constructs an in-memory record from an attribute mapping and
`Document.insert` persists a record; either may fail.  The state type threads
whatever the external system remembers between calls (e.g. already-persisted
names), so that a later call in a `*_list` loop can fail after earlier ones
succeeded.
-/

/-- The `__del__` entry installed by `_attach_del`. -/
inductive DelMethod where
  | del_override
deriving DecidableEq

/-- A Python class, as far as the factory observes it: either a class produced
by the external record system, or the dynamically created
`type("TempSubclass", (parent,), {"__del__": cls.__del_override__})`, whose
own dict holds exactly the one `__del__` entry. -/
inductive PyClass where
  | orig (name : String)
  | sub (name : String) (parent : PyClass) (delm : DelMethod)
deriving DecidableEq

/-- Python `issubclass` over the modelled class chain (reflexive). -/
def isSubclassOf (c d : PyClass) : Bool :=
  match c with
  | PyClass.orig n => decide (PyClass.orig n = d)
  | PyClass.sub n p m => decide (PyClass.sub n p m = d) || isSubclassOf p d

/-- A frappe `Document`: its runtime class, its constructed fields, and its
mutable `flags` metadata store (independent of the persisted fields). -/
structure Record where
  cls : PyClass
  fields : VDict
  flags : VDict

/-- The external record system: `frappe.get_doc` and `Document.insert`,
stateful and fallible, with errors rendered as strings. -/
structure Frappe (σ : Type) where
  get_doc : σ → VDict → σ × Except String Record
  insert : σ → Record → σ × Except String Unit

/-- Observable calls the factory makes into the external record system. -/
inductive Event where
  | construct (mapping : VDict)
  | persist (fields : VDict)

/-- Errors surfacing from a factory entry point: the `TypeError` of trait
validation, or an error propagated unmodified from the external system. -/
inductive FactoryError where
  | invalidTraits (e : TraitError)
  | external (msg : String)

/-- Result of one factory entry point: final external-system state, the
ordered trace of external calls made, and the returned value or error. -/
structure Outcome (σ : Type) (A : Type) where
  state : σ
  events : List Event
  result : Except FactoryError A

/-- Source `BaseFactory.__del_override__`: its body is `pass`, so it returns
normally on every record and never raises. -/
def del_override (_self : Record) : Except String Unit :=
  Except.ok ()

/-- Run a `__del__` entry on a record. -/
def runDel : DelMethod → Record → Except String Unit
  | DelMethod.del_override, r => del_override r

/-- Source `BaseFactory._attach_del`: create
`type("TempSubclass", (obj.__class__,), {"__del__": cls.__del_override__})`
and assign it as the class of the object; fields and flags are untouched. -/
def attach_del (r : Record) : Record :=
  { r with cls := PyClass.sub "TempSubclass" r.cls DelMethod.del_override }

/-- Source `overrides.get("flags", {})` as consumed by
`doctype.flags.update(**...)`.  Claims only exercise mapping-valued `flags`;
a non-mapping value would make the `**` unpacking raise in Python and is
mapped to the empty dict here, which no theorem below relies on. -/
def flagsOf (overrides : VDict) : VDict :=
  match assocFind overrides "flags" with
  | some (Value.map m) => m
  | some _ => []
  | none => []

/-- The mapping `build` hands to `frappe.get_doc`:
`{**instance.attributes, **overrides, "doctype": instance.doctype}`. -/
def final_mapping (cls : FactoryClass) (factory_traits : List String)
    (overrides : VDict) : VDict :=
  dictInsert
    (dictMerge
      (attributes { cls := cls, factory_traits := factory_traits, overrides := overrides })
      overrides)
    "doctype" (Value.str cls.doctype)

/-- Source `BaseFactory.build`: instantiate (validating traits), store the
overrides, construct the record from `final_mapping`, then update the
mutable `flags` store of the record from the reserved `flags` override. -/
def build {σ : Type} (F : Frappe σ) (cls : FactoryClass)
    (factory_traits : List String) (overrides : VDict) (s : σ) :
    Outcome σ Record :=
  match init cls factory_traits with
  | Except.error e =>
      { state := s, events := [], result := Except.error (FactoryError.invalidTraits e) }
  | Except.ok inst0 =>
      let inst : FactoryInstance := { inst0 with overrides := overrides }
      let mapping := final_mapping inst.cls inst.factory_traits inst.overrides
      match F.get_doc s mapping with
      | (s1, Except.error msg) =>
          { state := s1, events := [Event.construct mapping],
            result := Except.error (FactoryError.external msg) }
      | (s1, Except.ok d) =>
          { state := s1, events := [Event.construct mapping],
            result := Except.ok { d with flags := dictMerge d.flags (flagsOf overrides) } }

/-- Source `BaseFactory.create`: `build`, then `doctype.insert()`, then
`cls._attach_del(doctype)`, then return the record.  A `build` error (and in
particular a trait-validation error) propagates before `insert` is reached. -/
def create {σ : Type} (F : Frappe σ) (cls : FactoryClass)
    (factory_traits : List String) (overrides : VDict) (s : σ) :
    Outcome σ Record :=
  match build F cls factory_traits overrides s with
  | { state := s1, events := ev, result := Except.error e } =>
      { state := s1, events := ev, result := Except.error e }
  | { state := s1, events := ev, result := Except.ok d } =>
      match F.insert s1 d with
      | (s2, Except.error msg) =>
          { state := s2, events := ev ++ [Event.persist d.fields],
            result := Except.error (FactoryError.external msg) }
      | (s2, Except.ok _) =>
          { state := s2, events := ev ++ [Event.persist d.fields],
            result := Except.ok (attach_del d) }

/-- Source `BaseFactory.build_list`:
`[cls.build(*_factory_traits, **overrides) for _ in range(n)]` — sequential
calls in order, an exception aborting the remaining iterations while the
events of completed iterations remain. -/
def build_list {σ : Type} (F : Frappe σ) (cls : FactoryClass) (n : Nat)
    (factory_traits : List String) (overrides : VDict) (s : σ) :
    Outcome σ (List Record) :=
  match n with
  | 0 => { state := s, events := [], result := Except.ok [] }
  | Nat.succ m =>
      match build F cls factory_traits overrides s with
      | { state := s1, events := ev1, result := Except.error e } =>
          { state := s1, events := ev1, result := Except.error e }
      | { state := s1, events := ev1, result := Except.ok d } =>
          match build_list F cls m factory_traits overrides s1 with
          | { state := s2, events := ev2, result := Except.error e } =>
              { state := s2, events := ev1 ++ ev2, result := Except.error e }
          | { state := s2, events := ev2, result := Except.ok ds } =>
              { state := s2, events := ev1 ++ ev2, result := Except.ok (d :: ds) }

/-- Source `BaseFactory.create_list`:
`[cls.create(*_factory_traits, **overrides) for _ in range(n)]`. -/
def create_list {σ : Type} (F : Frappe σ) (cls : FactoryClass) (n : Nat)
    (factory_traits : List String) (overrides : VDict) (s : σ) :
    Outcome σ (List Record) :=
  match n with
  | 0 => { state := s, events := [], result := Except.ok [] }
  | Nat.succ m =>
      match create F cls factory_traits overrides s with
      | { state := s1, events := ev1, result := Except.error e } =>
          { state := s1, events := ev1, result := Except.error e }
      | { state := s1, events := ev1, result := Except.ok d } =>
          match create_list F cls m factory_traits overrides s1 with
          | { state := s2, events := ev2, result := Except.error e } =>
              { state := s2, events := ev1 ++ ev2, result := Except.error e }
          | { state := s2, events := ev2, result := Except.ok ds } =>
              { state := s2, events := ev1 ++ ev2, result := Except.ok (d :: ds) }

/-- Number of `frappe.get_doc` calls in a trace. -/
def countConstruct (ev : List Event) : Nat :=
  (ev.filter (fun e => match e with | Event.construct _ => true | _ => false)).length

/-- Number of `Document.insert` calls in a trace. -/
def countPersist (ev : List Event) : Nat :=
  (ev.filter (fun e => match e with | Event.persist _ => true | _ => false)).length

/-- The value the selected traits contribute for a field: the value from the
last trait in the sequence whose mapping defines the field, if any. -/
def traitValue (cls : FactoryClass) (factory_traits : List String) (k : String) :
    Option Value :=
  match factory_traits with
  | [] => none
  | t :: ts => oalt (traitValue cls ts k) (assocFind (getProp cls t) k)

/-- MockFactory of `test_base_factory.py`: doctype `"Test DocType"`, the four
properties in definition order. -/
def MockFactory : FactoryClass :=
  { doctype := "Test DocType",
    ownProps :=
      [ ("default_attributes",
          [ ("name", Value.str "Test Document"),
            ("field1", Value.str "default_value1"),
            ("field2", Value.int 100),
            ("is_active", Value.int 1) ]),
        ("with_custom_name", [("name", Value.str "Custom Name Document")]),
        ("with_special_fields",
          [ ("field1", Value.str "special_value"),
            ("field3", Value.str "special_field3") ]),
        ("with_numbers", [("field2", Value.int 999), ("field4", Value.int 42)]) ] }

/-- A well-behaved external record system: `get_doc` returns a fresh
`Document` holding exactly the given fields, `insert` always succeeds.  The
`Nat` state counts inserts. -/
def mockFrappe : Frappe Nat :=
  { get_doc := fun s m =>
      (s, Except.ok { cls := PyClass.orig "Document", fields := m, flags := [] }),
    insert := fun s _ => (s + 1, Except.ok ()) }

/-- An external record system whose second `insert` fails (e.g. a uniqueness
violation on the second identical persisted record). -/
def flakyInsertFrappe : Frappe Nat :=
  { get_doc := fun s m =>
      (s, Except.ok { cls := PyClass.orig "Document", fields := m, flags := [] }),
    insert := fun s _ =>
      if s = 1 then (s + 1, Except.error "DuplicateEntryError")
      else (s + 1, Except.ok ()) }

/-- An external record system whose second `get_doc` fails. -/
def flakyConstructFrappe : Frappe Nat :=
  { get_doc := fun s m =>
      if s = 1 then (s + 1, Except.error "ConstructionError")
      else (s + 1, Except.ok { cls := PyClass.orig "Document", fields := m, flags := [] }),
    insert := fun s _ => (s, Except.ok ()) }

theorem init_ok {cls : FactoryClass} {T : List String}
    (hv : ∀ t ∈ T, t ∈ validTraits cls) :
    init cls T = Except.ok { cls := cls, factory_traits := T, overrides := [] } := by
  unfold init
  rw [if_pos]
  rw [List.all_eq_true]
  intro t ht
  exact decide_eq_true (hv t ht)

theorem init_err {cls : FactoryClass} {T : List String}
    (hv : ¬ ∀ t ∈ T, t ∈ validTraits cls) :
    init cls T = Except.error { requested := T, valid := validTraits cls } := by
  unfold init
  rw [if_neg]
  intro h
  rw [List.all_eq_true] at h
  exact hv fun t ht => of_decide_eq_true (h t ht)

theorem build_invalid {σ : Type} (F : Frappe σ) {cls : FactoryClass}
    {T : List String} (O : VDict) (s : σ)
    (hv : ¬ ∀ t ∈ T, t ∈ validTraits cls) :
    build F cls T O s =
      { state := s, events := [],
        result := Except.error (FactoryError.invalidTraits
          { requested := T, valid := validTraits cls }) } := by
  unfold build
  rw [init_err hv]

theorem build_ok_char {σ : Type} (F : Frappe σ) {cls : FactoryClass}
    {T : List String} {O : VDict} {s s1 : σ} {d : Record}
    (hv : ∀ t ∈ T, t ∈ validTraits cls)
    (hg : F.get_doc s (final_mapping cls T O) = (s1, Except.ok d)) :
    build F cls T O s =
      { state := s1, events := [Event.construct (final_mapping cls T O)],
        result := Except.ok { d with flags := dictMerge d.flags (flagsOf O) } } := by
  unfold build
  rw [init_ok hv]
  simp only []
  rw [hg]

theorem build_construct_err {σ : Type} (F : Frappe σ) {cls : FactoryClass}
    {T : List String} {O : VDict} {s s1 : σ} {msg : String}
    (hv : ∀ t ∈ T, t ∈ validTraits cls)
    (hg : F.get_doc s (final_mapping cls T O) = (s1, Except.error msg)) :
    build F cls T O s =
      { state := s1, events := [Event.construct (final_mapping cls T O)],
        result := Except.error (FactoryError.external msg) } := by
  unfold build
  rw [init_ok hv]
  simp only []
  rw [hg]

theorem build_events_valid {σ : Type} (F : Frappe σ) {cls : FactoryClass}
    {T : List String} (O : VDict) (s : σ)
    (hv : ∀ t ∈ T, t ∈ validTraits cls) :
    (build F cls T O s).events = [Event.construct (final_mapping cls T O)] := by
  rcases hg : F.get_doc s (final_mapping cls T O) with ⟨s1, res⟩
  cases res with
  | error msg => rw [build_construct_err F hv hg]
  | ok d => rw [build_ok_char F hv hg]

theorem build_no_persist {σ : Type} (F : Frappe σ) (cls : FactoryClass)
    (T : List String) (O : VDict) (s : σ) :
    countPersist (build F cls T O s).events = 0 := by
  by_cases hv : ∀ t ∈ T, t ∈ validTraits cls
  · rw [build_events_valid F O s hv]
    rfl
  · rw [build_invalid F O s hv]
    rfl

theorem build_ok_inv {σ : Type} {F : Frappe σ} {cls : FactoryClass}
    {T : List String} {O : VDict} {s s1 : σ} {ev : List Event} {r : Record}
    (hb : build F cls T O s =
      { state := s1, events := ev, result := Except.ok r }) :
    ev = [Event.construct (final_mapping cls T O)] ∧
    ∃ d : Record, F.get_doc s (final_mapping cls T O) = (s1, Except.ok d) ∧
      r = { d with flags := dictMerge d.flags (flagsOf O) } := by
  by_cases hv : ∀ t ∈ T, t ∈ validTraits cls
  · rcases hg : F.get_doc s (final_mapping cls T O) with ⟨s1', res⟩
    cases res with
    | error msg =>
        rw [build_construct_err F hv hg] at hb
        simp [Outcome.mk.injEq] at hb
    | ok d =>
        rw [build_ok_char F hv hg] at hb
        simp only [Outcome.mk.injEq, Except.ok.injEq] at hb
        obtain ⟨hs, hev, hr⟩ := hb
        refine ⟨hev.symm, d, ?_, hr.symm⟩
        rw [← hs]
  · rw [build_invalid F O s hv] at hb
    simp [Outcome.mk.injEq] at hb

theorem assocFind_foldl_traits (cls : FactoryClass) :
    ∀ (T : List String) (acc : VDict) (k : String),
      (∀ t ∈ T, DictWF (getProp cls t)) →
      assocFind (T.foldl (fun a el => dictMerge a (getProp cls el)) acc) k =
        oalt (traitValue cls T k) (assocFind acc k) := by
  intro T
  induction T with
  | nil => intro acc k _; rfl
  | cons t ts ih =>
      intro acc k hw
      have hwt : DictWF (getProp cls t) := hw t (List.mem_cons_self t ts)
      have hwts : ∀ x ∈ ts, DictWF (getProp cls x) :=
        fun x hx => hw x (List.mem_cons_of_mem t hx)
      rw [List.foldl_cons, ih (dictMerge acc (getProp cls t)) k hwts,
        assocFind_dictMerge_wf hwt, traitValue, oalt_assoc]

/-- Lookup in the resolved attributes: the last trait defining the field wins,
then the default attributes; `overrides` plays no role here. -/
theorem assocFind_attributes (cls : FactoryClass) (T : List String) (O : VDict)
    (k : String) (hw : ∀ t ∈ T, DictWF (getProp cls t)) :
    assocFind (attributes { cls := cls, factory_traits := T, overrides := O }) k =
      oalt (traitValue cls T k) (assocFind (default_attributes cls) k) := by
  unfold attributes
  exact assocFind_foldl_traits cls T (default_attributes cls) k hw

/-- Lookup in the mapping handed to `frappe.get_doc`, for any field other than
the forced `doctype` key: overrides win, then the last defining trait, then
the default attributes. -/
theorem assocFind_final_mapping (cls : FactoryClass) (T : List String)
    (O : VDict) (k : String) (hk : k ≠ "doctype")
    (hw : ∀ t ∈ T, DictWF (getProp cls t)) (hO : DictWF O) :
    assocFind (final_mapping cls T O) k =
      oalt (assocFind O k)
        (oalt (traitValue cls T k) (assocFind (default_attributes cls) k)) := by
  unfold final_mapping
  rw [assocFind_dictInsert, if_neg hk, assocFind_dictMerge_wf hO,
    assocFind_attributes cls T O k hw]

theorem create_ok_char {σ : Type} (F : Frappe σ) {cls : FactoryClass}
    {T : List String} {O : VDict} {s s1 s2 : σ} {d : Record}
    (hv : ∀ t ∈ T, t ∈ validTraits cls)
    (hg : F.get_doc s (final_mapping cls T O) = (s1, Except.ok d))
    (hi : F.insert s1 { d with flags := dictMerge d.flags (flagsOf O) } =
      (s2, Except.ok ())) :
    create F cls T O s =
      { state := s2,
        events := [Event.construct (final_mapping cls T O),
          Event.persist d.fields],
        result := Except.ok
          (attach_del { d with flags := dictMerge d.flags (flagsOf O) }) } := by
  have hb := build_ok_char F hv hg
  simp only [create, hb, hi]
  rfl

theorem create_ok_inv {σ : Type} {F : Frappe σ} {cls : FactoryClass}
    {T : List String} {O : VDict} {s s2 : σ} {ev : List Event} {r : Record}
    (hc : create F cls T O s = { state := s2, events := ev, result := Except.ok r }) :
    ∃ d1 : Record,
      ev = [Event.construct (final_mapping cls T O), Event.persist d1.fields] ∧
      r = attach_del d1 ∧
      (build F cls T O s).result = Except.ok d1 := by
  rcases hb : build F cls T O s with ⟨bs, bev, bres⟩
  cases bres with
  | error e =>
      unfold create at hc
      rw [hb] at hc
      simp [Outcome.mk.injEq] at hc
  | ok d =>
      unfold create at hc
      rw [hb] at hc
      simp only [] at hc
      rcases hins : F.insert bs d with ⟨si, ires⟩
      cases ires with
      | error msg =>
          rw [hins] at hc
          simp [Outcome.mk.injEq] at hc
      | ok u =>
          rw [hins] at hc
          simp only [Outcome.mk.injEq, Except.ok.injEq] at hc
          obtain ⟨hs, hev, hr⟩ := hc
          obtain ⟨hbev, _⟩ := build_ok_inv hb
          refine ⟨d, ?_, hr.symm, ?_⟩
          · rw [← hev, hbev]
            rfl
          · simp [hb]

theorem build_list_ok_inv {σ : Type} (F : Frappe σ) (cls : FactoryClass)
    (T : List String) (O : VDict) :
    ∀ (n : Nat) (s s2 : σ) (ev : List Event) (ds : List Record),
      build_list F cls n T O s = { state := s2, events := ev, result := Except.ok ds } →
      ds.length = n ∧
      ev = List.replicate n (Event.construct (final_mapping cls T O)) := by
  intro n
  induction n with
  | zero =>
      intro s s2 ev ds h
      unfold build_list at h
      simp only [Outcome.mk.injEq, Except.ok.injEq] at h
      obtain ⟨_, hev, hds⟩ := h
      rw [← hds, ← hev]
      exact ⟨rfl, rfl⟩
  | succ m ih =>
      intro s s2 ev ds h
      rcases hb : build F cls T O s with ⟨bs, bev, bres⟩
      cases bres with
      | error e =>
          unfold build_list at h
          rw [hb] at h
          simp [Outcome.mk.injEq] at h
      | ok d =>
          unfold build_list at h
          rw [hb] at h
          simp only [] at h
          rcases hr : build_list F cls m T O bs with ⟨rs, rev, rres⟩
          cases rres with
          | error e =>
              rw [hr] at h
              simp [Outcome.mk.injEq] at h
          | ok ds' =>
              rw [hr] at h
              simp only [Outcome.mk.injEq, Except.ok.injEq] at h
              obtain ⟨_, hev, hds⟩ := h
              obtain ⟨hlen, hrev⟩ := ih bs rs rev ds' hr
              obtain ⟨hbev, _⟩ := build_ok_inv hb
              constructor
              · rw [← hds, List.length_cons, hlen]
              · rw [← hev, hbev, hrev, List.replicate_succ]
                rfl

theorem build_list_error_inv {σ : Type} (F : Frappe σ) (cls : FactoryClass)
    (T : List String) (O : VDict) :
    ∀ (n : Nat) (s s2 : σ) (ev : List Event) (e : FactoryError),
      build_list F cls n T O s = { state := s2, events := ev, result := Except.error e } →
      ∃ (k : Nat) (sk : σ) (evp evf : List Event) (ds : List Record),
        k < n ∧
        build_list F cls k T O s = { state := sk, events := evp, result := Except.ok ds } ∧
        ds.length = k ∧
        build F cls T O sk = { state := s2, events := evf, result := Except.error e } ∧
        ev = evp ++ evf := by
  intro n
  induction n with
  | zero =>
      intro s s2 ev e h
      unfold build_list at h
      simp [Outcome.mk.injEq] at h
  | succ m ih =>
      intro s s2 ev e h
      rcases hb : build F cls T O s with ⟨bs, bev, bres⟩
      cases bres with
      | error e0 =>
          unfold build_list at h
          rw [hb] at h
          simp only [Outcome.mk.injEq, Except.error.injEq] at h
          obtain ⟨hs, hev, he⟩ := h
          refine ⟨0, s, [], ev, [], Nat.succ_pos m, rfl, rfl, ?_, rfl⟩
          rw [hb, hs, hev, he]
      | ok d =>
          unfold build_list at h
          rw [hb] at h
          simp only [] at h
          rcases hr : build_list F cls m T O bs with ⟨rs, rev, rres⟩
          cases rres with
          | ok ds' =>
              rw [hr] at h
              simp [Outcome.mk.injEq] at h
          | error e1 =>
              rw [hr] at h
              simp only [Outcome.mk.injEq, Except.error.injEq] at h
              obtain ⟨hs, hev, he⟩ := h
              obtain ⟨k, sk, evp, evf, ds, hk, hpre, hlen, hfail, hevr⟩ :=
                ih bs rs rev e1 hr
              refine ⟨k + 1, sk, bev ++ evp, evf, d :: ds, Nat.succ_lt_succ hk,
                ?_, ?_, ?_, ?_⟩
              · unfold build_list
                rw [hb]
                simp only []
                rw [hpre]
              · rw [List.length_cons, hlen]
              · rw [hfail, hs, he]
              · rw [← hev, hevr, List.append_assoc]

theorem create_list_error_inv {σ : Type} (F : Frappe σ) (cls : FactoryClass)
    (T : List String) (O : VDict) :
    ∀ (n : Nat) (s s2 : σ) (ev : List Event) (e : FactoryError),
      create_list F cls n T O s = { state := s2, events := ev, result := Except.error e } →
      ∃ (k : Nat) (sk : σ) (evp evf : List Event) (ds : List Record),
        k < n ∧
        create_list F cls k T O s = { state := sk, events := evp, result := Except.ok ds } ∧
        ds.length = k ∧
        create F cls T O sk = { state := s2, events := evf, result := Except.error e } ∧
        ev = evp ++ evf := by
  intro n
  induction n with
  | zero =>
      intro s s2 ev e h
      unfold create_list at h
      simp [Outcome.mk.injEq] at h
  | succ m ih =>
      intro s s2 ev e h
      rcases hb : create F cls T O s with ⟨bs, bev, bres⟩
      cases bres with
      | error e0 =>
          unfold create_list at h
          rw [hb] at h
          simp only [Outcome.mk.injEq, Except.error.injEq] at h
          obtain ⟨hs, hev, he⟩ := h
          refine ⟨0, s, [], ev, [], Nat.succ_pos m, rfl, rfl, ?_, rfl⟩
          rw [hb, hs, hev, he]
      | ok d =>
          unfold create_list at h
          rw [hb] at h
          simp only [] at h
          rcases hr : create_list F cls m T O bs with ⟨rs, rev, rres⟩
          cases rres with
          | ok ds' =>
              rw [hr] at h
              simp [Outcome.mk.injEq] at h
          | error e1 =>
              rw [hr] at h
              simp only [Outcome.mk.injEq, Except.error.injEq] at h
              obtain ⟨hs, hev, he⟩ := h
              obtain ⟨k, sk, evp, evf, ds, hk, hpre, hlen, hfail, hevr⟩ :=
                ih bs rs rev e1 hr
              refine ⟨k + 1, sk, bev ++ evp, evf, d :: ds, Nat.succ_lt_succ hk,
                ?_, ?_, ?_, ?_⟩
              · unfold create_list
                rw [hb]
                simp only []
                rw [hpre]
              · rw [List.length_cons, hlen]
              · rw [hfail, hs, he]
              · rw [← hev, hevr, List.append_assoc]

/-- The mapping `MockFactory.build()` constructs with no traits and no
overrides: the default attributes plus the forced `doctype` key
(cf. `test_build_creates_unsaved_document`). -/
def M0 : VDict :=
  [ ("name", Value.str "Test Document"),
    ("field1", Value.str "default_value1"),
    ("field2", Value.int 100),
    ("is_active", Value.int 1),
    ("doctype", Value.str "Test DocType") ]

/-- The record `mockFrappe` constructs from `M0`. -/
def d0 : Record := { cls := PyClass.orig "Document", fields := M0, flags := [] }

theorem countConstruct_replicate (n : Nat) (m : VDict) :
    countConstruct (List.replicate n (Event.construct m)) = n := by
  induction n with
  | zero => rfl
  | succ k ih =>
      rw [List.replicate_succ]
      unfold countConstruct at ih ⊢
      rw [List.filter_cons_of_pos rfl, List.length_cons, ih]

theorem isSubclassOf_self (c : PyClass) : isSubclassOf c c = true := by
  cases c <;> simp [isSubclassOf]

/-- C1: for every factory class, valid trait sequence and override mapping,
the mapping `build` hands to `frappe.get_doc` satisfies, for each field other
than the forced `doctype` key: the override value if the field is overridden,
else the value from the last selected trait defining it, else the
default-attributes value, and the field is absent when no tier defines it
(the lookup chain returns `none`). -/
theorem build_mapping_precedence {σ : Type} (F : Frappe σ) (s : σ)
    (cls : FactoryClass) (T : List String) (O : VDict) (k : String)
    (hv : ∀ t ∈ T, t ∈ validTraits cls)
    (hw : ∀ t ∈ T, DictWF (getProp cls t))
    (hO : DictWF O) (hk : k ≠ "doctype") :
    (build F cls T O s).events = [Event.construct (final_mapping cls T O)] ∧
    assocFind (final_mapping cls T O) k =
      oalt (assocFind O k)
        (oalt (traitValue cls T k) (assocFind (default_attributes cls) k)) :=
  ⟨build_events_valid F O s hv, assocFind_final_mapping cls T O k hk hw hO⟩

/-- Witness for C1 at the inputs of `test_build_precedence_order`. -/
theorem build_mapping_precedence_witness :
    (build mockFrappe MockFactory ["with_custom_name", "with_numbers"]
        [("name", Value.str "Final Override"), ("field2", Value.int 777)] 0).events =
      [Event.construct (final_mapping MockFactory ["with_custom_name", "with_numbers"]
        [("name", Value.str "Final Override"), ("field2", Value.int 777)])] ∧
    assocFind (final_mapping MockFactory ["with_custom_name", "with_numbers"]
        [("name", Value.str "Final Override"), ("field2", Value.int 777)]) "field2" =
      oalt (assocFind [("name", Value.str "Final Override"), ("field2", Value.int 777)] "field2")
        (oalt (traitValue MockFactory ["with_custom_name", "with_numbers"] "field2")
          (assocFind (default_attributes MockFactory) "field2")) :=
  build_mapping_precedence mockFrappe 0 MockFactory
    ["with_custom_name", "with_numbers"]
    [("name", Value.str "Final Override"), ("field2", Value.int 777)]
    "field2" (by decide) (by decide) (by decide) (by decide)

/-- C2: the `doctype` key of the mapping passed to `frappe.get_doc` always
equals the factory class declared doctype, whatever the overrides contain:
the assignment is spread last in the dict literal and cannot be shadowed. -/
theorem doctype_cannot_be_overridden {σ : Type} (F : Frappe σ) (s : σ)
    (cls : FactoryClass) (T : List String) (O : VDict)
    (hv : ∀ t ∈ T, t ∈ validTraits cls) :
    (build F cls T O s).events = [Event.construct (final_mapping cls T O)] ∧
    assocFind (final_mapping cls T O) "doctype" = some (Value.str cls.doctype) := by
  refine ⟨build_events_valid F O s hv, ?_⟩
  unfold final_mapping
  rw [assocFind_dictInsert]
  simp

/-- Witness for C2 at the input of `test_doctype_cannot_be_overridden`: the
caller attempts to override `doctype` with a different value. -/
theorem doctype_cannot_be_overridden_witness :
    (build mockFrappe MockFactory []
        [("doctype", Value.str "Malicious DocType")] 0).events =
      [Event.construct (final_mapping MockFactory []
        [("doctype", Value.str "Malicious DocType")])] ∧
    assocFind (final_mapping MockFactory []
        [("doctype", Value.str "Malicious DocType")]) "doctype" =
      some (Value.str MockFactory.doctype) :=
  doctype_cannot_be_overridden mockFrappe 0 MockFactory []
    [("doctype", Value.str "Malicious DocType")] (by decide)

/-- The overrides of `test_build_with_flags`: a reserved `flags` entry. -/
def flagsOverride : VDict :=
  [("flags", Value.map
    [("flag1", Value.str "value_1"), ("flag2", Value.str "value_2")])]

/-- C3 fails on the code: `build` spreads the full `overrides` dict — the
reserved `flags` key included — into the mapping passed to `frappe.get_doc`,
because `{**instance.attributes, **overrides, "doctype": ...}` does not remove
`"flags"` from `overrides`.  The repository test `test_build_with_flags`
asserts the opposite mapping (without the `flags` key), so the code
contradicts its own test.  The second half of the claim does hold: the `flags`
entries are also applied to the mutable `flags` store of the returned record. -/
theorem flags_forwarded_into_constructor_mapping :
    assocFind (final_mapping MockFactory [] flagsOverride) "flags" =
      some (Value.map
        [("flag1", Value.str "value_1"), ("flag2", Value.str "value_2")]) ∧
    (build mockFrappe MockFactory [] flagsOverride 0).events =
      [Event.construct (final_mapping MockFactory [] flagsOverride)] ∧
    (build mockFrappe MockFactory [] flagsOverride 0).result =
      Except.ok
        { cls := PyClass.orig "Document",
          fields := final_mapping MockFactory [] flagsOverride,
          flags := [("flag1", Value.str "value_1"), ("flag2", Value.str "value_2")] } ∧
    assocFind (final_mapping MockFactory [] flagsOverride) "flag1" = none :=
  ⟨rfl, rfl, rfl, rfl⟩

/-- C4: requesting any trait name that is not a property of the concrete class
(other than `default_attributes`) raises the `TypeError` before any attribute
resolution — the error carries the full requested list (hence every invalid
name) and the full valid set, and `build` performs no external call — while an
empty or fully valid trait sequence never raises. -/
theorem invalid_traits_raise_valid_never {σ : Type} (F : Frappe σ) (s : σ)
    (cls : FactoryClass) (T : List String) (O : VDict) :
    ((∃ t ∈ T, t ∉ validTraits cls) →
      init cls T = Except.error { requested := T, valid := validTraits cls } ∧
      build F cls T O s =
        { state := s, events := [],
          result := Except.error (FactoryError.invalidTraits
            { requested := T, valid := validTraits cls }) }) ∧
    ((∀ t ∈ T, t ∈ validTraits cls) →
      init cls T = Except.ok { cls := cls, factory_traits := T, overrides := [] }) ∧
    init cls [] = Except.ok { cls := cls, factory_traits := [], overrides := [] } := by
  refine ⟨?_, fun hv => init_ok hv, init_ok (by intro t ht; cases ht)⟩
  rintro ⟨t, ht, hnt⟩
  have hv : ¬ ∀ x ∈ T, x ∈ validTraits cls := fun h => hnt (h t ht)
  exact ⟨init_err hv, build_invalid F O s hv⟩

/-- Witness for C4: `test_invalid_traits_raises_error` input on the invalid
side, `test_valid_traits_detection` input on the valid side. -/
theorem invalid_traits_raise_valid_never_witness :
    (init MockFactory ["invalid_trait", "with_custom_name"] =
      Except.error
        { requested := ["invalid_trait", "with_custom_name"],
          valid := validTraits MockFactory }) ∧
    (init MockFactory ["with_custom_name", "with_special_fields", "with_numbers"] =
      Except.ok
        { cls := MockFactory,
          factory_traits := ["with_custom_name", "with_special_fields", "with_numbers"],
          overrides := [] }) :=
  ⟨((invalid_traits_raise_valid_never mockFrappe 0 MockFactory
      ["invalid_trait", "with_custom_name"] []).1 (by decide)).1,
    (invalid_traits_raise_valid_never mockFrappe 0 MockFactory
      ["with_custom_name", "with_special_fields", "with_numbers"] []).2.1 (by decide)⟩

/-- C5: `build` never calls `insert`, and a successful `create` calls
`frappe.get_doc` exactly once and then `insert` exactly once — its trace is
exactly those two events in that order — and returns the persisted record
with the cleanup finalizer subclass attached. -/
theorem build_never_persists_create_once {σ : Type} (F : Frappe σ)
    (cls : FactoryClass) (T : List String) (O : VDict) (s : σ) :
    countPersist (build F cls T O s).events = 0 ∧
    ∀ (s2 : σ) (ev : List Event) (r : Record),
      create F cls T O s = { state := s2, events := ev, result := Except.ok r } →
      ev = [Event.construct (final_mapping cls T O), Event.persist r.fields] ∧
      ∃ c : PyClass, r.cls = PyClass.sub "TempSubclass" c DelMethod.del_override := by
  refine ⟨build_no_persist F cls T O s, ?_⟩
  intro s2 ev r hc
  obtain ⟨d1, hev, hr, _⟩ := create_ok_inv hc
  subst hr
  exact ⟨by rw [hev]; rfl, d1.cls, rfl⟩

/-- Witness for C5: a successful `create` with no traits and no overrides. -/
theorem build_never_persists_create_once_witness :
    countPersist (build mockFrappe MockFactory [] [] 0).events = 0 ∧
    ([Event.construct M0, Event.persist M0] =
      [Event.construct (final_mapping MockFactory [] []),
        Event.persist (attach_del d0).fields] ∧
      ∃ c : PyClass,
        (attach_del d0).cls = PyClass.sub "TempSubclass" c DelMethod.del_override) :=
  ⟨(build_never_persists_create_once mockFrappe MockFactory [] [] 0).1,
    (build_never_persists_create_once mockFrappe MockFactory [] [] 0).2
      1 [Event.construct M0, Event.persist M0] (attach_del d0) rfl⟩

/-- C6: a successful `build_list n` returns exactly n records and its trace is
n `frappe.get_doc` calls, every one receiving the same independently resolved
mapping `final_mapping cls T O`. -/
theorem build_list_length_and_trace {σ : Type} (F : Frappe σ)
    (cls : FactoryClass) (T : List String) (O : VDict) (n : Nat) (s s2 : σ)
    (ev : List Event) (ds : List Record)
    (h : build_list F cls n T O s =
      { state := s2, events := ev, result := Except.ok ds }) :
    ds.length = n ∧
    countConstruct ev = n ∧
    ev = List.replicate n (Event.construct (final_mapping cls T O)) := by
  obtain ⟨hlen, hev⟩ := build_list_ok_inv F cls T O n s s2 ev ds h
  refine ⟨hlen, ?_, hev⟩
  rw [hev, countConstruct_replicate]

/-- Witness for C6: `build_list 3` with no traits and no overrides. -/
theorem build_list_length_and_trace_witness :
    ([d0, d0, d0] : List Record).length = 3 ∧
    countConstruct [Event.construct M0, Event.construct M0, Event.construct M0] = 3 ∧
    [Event.construct M0, Event.construct M0, Event.construct M0] =
      List.replicate 3 (Event.construct (final_mapping MockFactory [] [])) :=
  build_list_length_and_trace mockFrappe MockFactory [] [] 3 0 0
    [Event.construct M0, Event.construct M0, Event.construct M0]
    [d0, d0, d0] rfl

/-- C7: when an item of a `build_list` or `create_list` call fails, the error
is returned unmodified, only an initial run of k successful iterations
precedes it (the remaining iterations are not performed), and the trace keeps
the side effects of that initial run followed by those of the failing call
only. -/
theorem list_failure_aborts_and_propagates {σ : Type} (F : Frappe σ)
    (cls : FactoryClass) (T : List String) (O : VDict) :
    (∀ (n : Nat) (s s2 : σ) (ev : List Event) (e : FactoryError),
      build_list F cls n T O s =
        { state := s2, events := ev, result := Except.error e } →
      ∃ (k : Nat) (sk : σ) (evp evf : List Event) (ds : List Record),
        k < n ∧
        build_list F cls k T O s =
          { state := sk, events := evp, result := Except.ok ds } ∧
        ds.length = k ∧
        build F cls T O sk =
          { state := s2, events := evf, result := Except.error e } ∧
        ev = evp ++ evf) ∧
    (∀ (n : Nat) (s s2 : σ) (ev : List Event) (e : FactoryError),
      create_list F cls n T O s =
        { state := s2, events := ev, result := Except.error e } →
      ∃ (k : Nat) (sk : σ) (evp evf : List Event) (ds : List Record),
        k < n ∧
        create_list F cls k T O s =
          { state := sk, events := evp, result := Except.ok ds } ∧
        ds.length = k ∧
        create F cls T O sk =
          { state := s2, events := evf, result := Except.error e } ∧
        ev = evp ++ evf) :=
  ⟨build_list_error_inv F cls T O, create_list_error_inv F cls T O⟩

/-- Witness for C7: a second `get_doc` call failing inside `build_list 3`, and
a second `insert` call failing inside `create_list 3`. -/
theorem list_failure_aborts_and_propagates_witness :
    (∃ (k : Nat) (sk : Nat) (evp evf : List Event) (ds : List Record),
      k < 3 ∧
      build_list flakyConstructFrappe MockFactory k [] [] 0 =
        { state := sk, events := evp, result := Except.ok ds } ∧
      ds.length = k ∧
      build flakyConstructFrappe MockFactory [] [] sk =
        { state := 2, events := evf,
          result := Except.error (FactoryError.external "ConstructionError") } ∧
      [Event.construct M0, Event.construct M0] = evp ++ evf) ∧
    (∃ (k : Nat) (sk : Nat) (evp evf : List Event) (ds : List Record),
      k < 3 ∧
      create_list flakyInsertFrappe MockFactory k [] [] 0 =
        { state := sk, events := evp, result := Except.ok ds } ∧
      ds.length = k ∧
      create flakyInsertFrappe MockFactory [] [] sk =
        { state := 2, events := evf,
          result := Except.error (FactoryError.external "DuplicateEntryError") } ∧
      [Event.construct M0, Event.persist M0, Event.construct M0, Event.persist M0] =
        evp ++ evf) :=
  ⟨(list_failure_aborts_and_propagates flakyConstructFrappe MockFactory [] []).1
      3 0 2 [Event.construct M0, Event.construct M0]
      (FactoryError.external "ConstructionError") rfl,
    (list_failure_aborts_and_propagates flakyInsertFrappe MockFactory [] []).2
      3 0 2 [Event.construct M0, Event.persist M0, Event.construct M0,
        Event.persist M0]
      (FactoryError.external "DuplicateEntryError") rfl⟩

/-- C8: trait overlay is idempotent — appending the same valid trait twice
resolves to the same attribute mapping (Python dict equality is lookup
equality) as appending it once — and trait validation, being a set-subset
check, accepts sequences with duplicated valid names. -/
theorem duplicate_traits_idempotent (cls : FactoryClass) (T : List String)
    (t : String) (O : VDict) (k : String) :
    (assocFind (attributes
        { cls := cls, factory_traits := T ++ [t, t], overrides := O }) k =
      assocFind (attributes
        { cls := cls, factory_traits := T ++ [t], overrides := O }) k) ∧
    ((∀ x ∈ T, x ∈ validTraits cls) → t ∈ validTraits cls →
      init cls (T ++ [t, t]) =
        Except.ok { cls := cls, factory_traits := T ++ [t, t], overrides := [] }) := by
  constructor
  · unfold attributes
    simp only [List.foldl_append, List.foldl_cons, List.foldl_nil]
    exact assocFind_dictMerge_idem _ _ k
  · intro h1 h2
    apply init_ok
    intro x hx
    rcases List.mem_append.mp hx with hxT | hxt
    · exact h1 x hxT
    · have hxt' : x = t := by
        simpa using hxt
      rw [hxt']
      exact h2

/-- Witness for C8 at a concrete factory, trait and field. -/
theorem duplicate_traits_idempotent_witness :
    (assocFind (attributes
        { cls := MockFactory,
          factory_traits := ["with_custom_name", "with_special_fields", "with_special_fields"],
          overrides := [] }) "field1" =
      assocFind (attributes
        { cls := MockFactory,
          factory_traits := ["with_custom_name", "with_special_fields"],
          overrides := [] }) "field1") ∧
    ((∀ x ∈ ["with_custom_name"], x ∈ validTraits MockFactory) →
      "with_special_fields" ∈ validTraits MockFactory →
      init MockFactory ["with_custom_name", "with_special_fields", "with_special_fields"] =
        Except.ok
          { cls := MockFactory,
            factory_traits := ["with_custom_name", "with_special_fields", "with_special_fields"],
            overrides := [] }) :=
  duplicate_traits_idempotent MockFactory ["with_custom_name"]
    "with_special_fields" [] "field1"

/-- C9: attribute resolution is a pure function of the class and the selected
traits: it reads neither the stored overrides nor any other state, so two
instances agreeing on class and traits resolve to equal mappings whatever
their overrides, and re-evaluation returns the same mapping (the embedding of
`attributes` is a function, faithful to the source property performing no
assignment). -/
theorem attributes_independent_of_overrides (i j : FactoryInstance)
    (hc : i.cls = j.cls) (ht : i.factory_traits = j.factory_traits) :
    attributes i = attributes j := by
  cases i
  cases j
  cases hc
  cases ht
  rfl

/-- Witness for C9: same class and traits, different overrides. -/
theorem attributes_independent_of_overrides_witness :
    attributes
      { cls := MockFactory, factory_traits := ["with_numbers"], overrides := [] } =
    attributes
      { cls := MockFactory, factory_traits := ["with_numbers"],
        overrides := [("field2", Value.int 777)] } :=
  attributes_independent_of_overrides
    { cls := MockFactory, factory_traits := ["with_numbers"], overrides := [] }
    { cls := MockFactory, factory_traits := ["with_numbers"],
      overrides := [("field2", Value.int 777)] } rfl rfl

/-- C10: `build` returns the record with exactly the class `frappe.get_doc`
produced, while `_attach_del` replaces the class by the freshly created direct
subclass `TempSubclass` of it, whose own dict holds only the `__del__` entry;
the record stays an instance of its original class with fields and flags
untouched, and the default `__del_override__` body is a no-op that never
raises. -/
theorem attach_del_preserves_type {σ : Type} (F : Frappe σ) (s s1 : σ)
    (cls : FactoryClass) (T : List String) (O : VDict) (d r : Record)
    (ev : List Event)
    (hg : F.get_doc s (final_mapping cls T O) = (s1, Except.ok d))
    (hb : build F cls T O s = { state := s1, events := ev, result := Except.ok r }) :
    r.cls = d.cls ∧
    (attach_del r).cls = PyClass.sub "TempSubclass" r.cls DelMethod.del_override ∧
    isSubclassOf (attach_del r).cls r.cls = true ∧
    (attach_del r).fields = r.fields ∧
    (attach_del r).flags = r.flags ∧
    runDel DelMethod.del_override r = Except.ok () := by
  obtain ⟨hev, d', hg', hr⟩ := build_ok_inv hb
  rw [hg] at hg'
  simp only [Prod.mk.injEq, Except.ok.injEq] at hg'
  obtain ⟨_, hdd⟩ := hg'
  subst hdd
  subst hr
  refine ⟨rfl, rfl, ?_, rfl, rfl, rfl⟩
  simp [attach_del, isSubclassOf, isSubclassOf_self]

/-- Witness for C10 at a concrete successful build. -/
theorem attach_del_preserves_type_witness :
    d0.cls = d0.cls ∧
    (attach_del d0).cls = PyClass.sub "TempSubclass" d0.cls DelMethod.del_override ∧
    isSubclassOf (attach_del d0).cls d0.cls = true ∧
    (attach_del d0).fields = d0.fields ∧
    (attach_del d0).flags = d0.flags ∧
    runDel DelMethod.del_override d0 = Except.ok () :=
  attach_del_preserves_type mockFrappe 0 0 MockFactory [] [] d0 d0
    [Event.construct M0] rfl rfl

end FrappeFactoryBot
